import Mathlib

/-!
Verification of the navigation-and-extraction state machine of the WA
business-registry scraper (`wa_scraper3/wa_search_sb_local_pdf_proxy4_v2.py`).

The Python functions are shallowly embedded: pure text processing becomes
Lean functions over `String`/`List Char`; browser/file-system interaction
is made explicit by passing the observed environment (page views, file
states, per-attempt outcomes) as values, with time accounted as an explicit
natural number of seconds where the code sleeps.  Machine integers do not
overflow in the modelled code paths (page numbers, counters), so `Nat` is
used directly.
-/

namespace WaScraper

/-! ## String utilities (Python `str.lower` and the `in` operator, ASCII) -/

/-- ASCII lower-casing of one character, as Python `str.lower()` acts on the
ASCII range (the markers searched for are plain ASCII). -/
def pyLowerChar (c : Char) : Char :=
  if 'A' ≤ c ∧ c ≤ 'Z' then Char.ofNat (c.toNat + 32) else c

/-- ASCII lower-casing of a string (Python `str.lower()` restricted to ASCII). -/
def pyLower (s : String) : String :=
  ⟨s.data.map pyLowerChar⟩

/-- Membership of `pat` as a contiguous substring of `s`, i.e. Python `pat in s`. -/
def listHasInfix (pat : List Char) : List Char → Bool
  | [] => pat.isEmpty
  | c :: rest => pat.isPrefixOf (c :: rest) || listHasInfix pat rest

/-- String-level substring containment: Python `pat in s`. -/
def containsSubstr (s pat : String) : Bool :=
  listHasInfix pat.data s.data

/-! ## Pager parsing (`parse_pager`, source lines 224-248)

The Python code runs `re.search` with the case-insensitive pattern
`Page\s+(\d+)\s+of\s+(\d+),\s*records\s+(\d+)\s+to\s+(\d+)\s+of\s+(\d+)`
over the page HTML.  The pattern has no alternation and its adjacent
tokens draw from disjoint character classes (digits / whitespace /
letters / comma), so greedy maximal-munch scanning is equivalent to the
regex semantics; `re.search` takes the leftmost matching start position.
`\d` and `\s` are modelled over their ASCII ranges. -/

/-- Python `\s` over ASCII: space, tab, newline, carriage return,
vertical tab, form feed. -/
def isPySpace (c : Char) : Bool :=
  c == ' ' || c == '\t' || c == '\n' || c == '\r' ||
  c == Char.ofNat 11 || c == Char.ofNat 12

/-- Numeric value of a decimal digit character. -/
def digitVal (c : Char) : Nat := c.toNat - 48

/-- Value of a run of decimal digits, most significant first (what
Python `int()` computes on the captured group). -/
def digitsVal (ds : List Char) : Nat :=
  ds.foldl (fun acc c => 10 * acc + digitVal c) 0

/-- Greedy `(\d+)`: consume a maximal nonempty digit run, returning its
integer value and the rest of the input. -/
def readDigits (s : List Char) : Option (Nat × List Char) :=
  let ds := s.takeWhile Char.isDigit
  if ds.isEmpty then none
  else some (digitsVal ds, s.dropWhile Char.isDigit)

/-- Greedy `\s+`: consume a maximal nonempty whitespace run. -/
def skipSpaces1 (s : List Char) : Option (List Char) :=
  if (s.takeWhile isPySpace).isEmpty then none
  else some (s.dropWhile isPySpace)

/-- Greedy `\s*`: consume a maximal (possibly empty) whitespace run. -/
def skipSpaces0 (s : List Char) : List Char :=
  s.dropWhile isPySpace

/-- Case-insensitive literal: consume exactly `lit` (up to ASCII case). -/
def matchLit : List Char → List Char → Option (List Char)
  | [], s => some s
  | _ :: _, [] => none
  | p :: ps, c :: cs =>
    if pyLowerChar p == pyLowerChar c then matchLit ps cs else none

/-- One token of the pager regex: a case-insensitive literal, `\s+`,
`\s*`, or a capturing `(\d+)`. -/
inductive PTok where
  | lit (cs : List Char)
  | sp1
  | sp0
  | num
deriving Repr, DecidableEq

/-- Run a token sequence against an input, greedily (equivalent to the
regex here, see the section comment), collecting the captured numbers
and returning the unconsumed remainder. -/
def matchToks : List PTok → List Char → Option (List Nat × List Char)
  | [], s => some ([], s)
  | .lit cs :: ts, s =>
    match matchLit cs s with
    | none => none
    | some s1 => matchToks ts s1
  | .sp1 :: ts, s =>
    match skipSpaces1 s with
    | none => none
    | some s1 => matchToks ts s1
  | .sp0 :: ts, s => matchToks ts (skipSpaces0 s)
  | .num :: ts, s =>
    match readDigits s with
    | none => none
    | some (n, s1) =>
      match matchToks ts s1 with
      | none => none
      | some (ns, rest) => some (n :: ns, rest)

/-- The token sequence of the pattern
`Page\s+(\d+)\s+of\s+(\d+),\s*records\s+(\d+)\s+to\s+(\d+)\s+of\s+(\d+)`. -/
def pagerPattern : List PTok :=
  [.lit "Page".data, .sp1, .num, .sp1, .lit "of".data, .sp1, .num,
   .lit ",".data, .sp0, .lit "records".data, .sp1, .num, .sp1,
   .lit "to".data, .sp1, .num, .sp1, .lit "of".data, .sp1, .num]

/-- Attempt to match the full pager pattern anchored at the start of `s`,
returning the five captured integers. -/
def matchPagerAt (s : List Char) : Option (Nat × Nat × Nat × Nat × Nat) :=
  match matchToks pagerPattern s with
  | some ([a, b, c, d, e], _) => some (a, b, c, d, e)
  | _ => none

/-- `re.search`: try the pattern at each start position left to right. -/
def pagerSearchList : List Char → Option (Nat × Nat × Nat × Nat × Nat)
  | [] => none
  | c :: rest =>
    match matchPagerAt (c :: rest) with
    | some g => some g
    | none => pagerSearchList rest

/-- The five pager fields returned by `parse_pager` (the Python dict keys
`page`, `total_pages`, `start`, `end`, `total`; `end` is a Lean keyword,
hence `end_`). -/
structure PagerInfo where
  page : Nat
  total_pages : Nat
  start : Nat
  end_ : Nat
  total : Nat
deriving Repr, DecidableEq

/-- Embedding of `parse_pager` (source lines 224-248): regex search for
"Page X of Y, records A to B of C", then rejection of the placeholder
(`total_pages` = 0 or `total` = 0), else the five parsed integers. -/
def parse_pager (html : String) : Option PagerInfo :=
  match pagerSearchList html.data with
  | none => none
  | some (a, b, c, d, e) =>
    if b == 0 || e == 0 then none
    else some ⟨a, b, c, d, e⟩

/-! ## Challenge detection and waiting

`handle_cloudflare_if_present` (source lines 463-489) and the nested
`handle_cloudflare` helper inside `click_back_with_cf` (source lines
1236-1252). -/

/-- Embedding of `handle_cloudflare_if_present`.  The argument is the
result of `sb.get_page_source()` — `none` when the read raised, in which
case the code falls back to the empty string.  The `Bool` is the Python
return value: whether a challenge marker was DETECTED (regardless of
whether it later cleared).  The `Nat` makes the sleeping explicit: the
detected branch sleeps a fixed 8 + 1 seconds (the `input()` prompt is
commented out in this version), the other branch does not sleep. -/
def handle_cloudflare_if_present (page_source : Option String) : Bool × Nat :=
  let html := page_source.getD ""
  let lower := pyLower html
  if containsSubstr lower "turnstile" || containsSubstr lower "cloudflare" then
    (true, 9)
  else
    (false, 0)

/-- The poll loop of the nested `handle_cloudflare` helper:
`for _ in range(300): if not marker_present: break; time.sleep(1)`.
`present t` says whether the challenge marker is in the DOM `t` seconds
after entering the loop; the result is the number of seconds slept. -/
def cf_poll_loop (present : Nat → Bool) : Nat → Nat → Nat
  | 0, t => t
  | fuel + 1, t => if present t then cf_poll_loop present fuel (t + 1) else t

/-- Embedding of the nested `handle_cloudflare` helper of
`click_back_with_cf` (source lines 1236-1252).  The Python function
returns `None`; the model returns the seconds slept, which is all a
caller can observe.  The poll budget is fixed at 300 one-second
iterations (~5 minutes) and is not a parameter. -/
def handle_cloudflare_nested (present : Nat → Bool) : Nat :=
  if present 0 then cf_poll_loop present 300 0 else 0

/-- A challenge marker that never disappears. -/
def cf_always_present : Nat → Bool := fun _ => true

/-! ## Return navigation (`click_back_with_cf`, source lines 1144-1338)

The function drives the browser back to the Business Search results
grid.  Its environment is modelled as the pages the browser presents:
the page at entry, the page reached by clicking the Business Information
back button, and the pages successively reached by
`window.history.back()`.  A page that is re-observed without a
navigation action in between is observed unchanged (asynchronous DOM
mutation during a pure wait is outside the model). -/

/-- One observed browser document.  `url = none` models
`sb.get_current_url()` raising, `html = none` models
`sb.get_page_source()` raising. -/
structure PageView where
  url : Option String
  html : Option String
deriving Repr, DecidableEq

/-- Helper `is_on_search_results` (source lines 1164-1188): URL must
contain "BusinessSearch", then any of three result-page markers in the
page source; any read failure means `False`. -/
def is_on_search_results (p : PageView) : Bool :=
  match p.url with
  | none => false
  | some url =>
    if !containsSubstr url "BusinessSearch" then false
    else
      match p.html with
      | none => false
      | some html =>
        containsSubstr html "Business Search Results" ||
        containsSubstr html "Page 1 of" ||
        containsSubstr html "businessList.length  &gt; 0"

/-- Helper `is_on_business_info` (source lines 1190-1203): URL contains
"BusinessInformation", or the page source contains the Business
Information header; both reads happen in one `try`, so either read
failing means `False`. -/
def is_on_business_info (p : PageView) : Bool :=
  match p.url, p.html with
  | some url, some html =>
    containsSubstr url "BusinessInformation" ||
    containsSubstr html "Business Information</h2>"
  | _, _ => false

/-- Helper `reached_advanced_search` (source lines 1205-1211): the URL
contains "AdvancedSearch". -/
def reached_advanced_search (p : PageView) : Bool :=
  match p.url with
  | none => false
  | some url => containsSubstr url "AdvancedSearch"

/-- The environment of one `click_back_with_cf` call: the page at entry,
the page reached by clicking `button.btn-back` on Business Information
(`none` when the button is absent or the click raises), and the pages
successively reached by `window.history.back()` (empty when history
navigation does not move). -/
structure NavSession where
  current : PageView
  btnBack : Option PageView
  hist : List PageView
deriving Repr, DecidableEq

/-- The step-3 fallback loop of `click_back_with_cf` (source lines
1291-1331) plus the final check (lines 1334-1338): up to `fuel` (3 in
the code) `window.history.back()` steps; before each step the loop
checks for the results grid (returns `True`) and for Advanced Search
(returns `False`), and after each landing the bounded wait re-checks the
same two conditions; an exhausted loop ends with a final results-grid
check.  Returns the Python return value paired with the number of
`history.back()` navigations performed. -/
def back_steps (p : PageView) (hist : List PageView) : Nat → Bool × Nat
  | 0 => (is_on_search_results p, 0)
  | fuel + 1 =>
    if is_on_search_results p then (true, 0)
    else if reached_advanced_search p then (false, 0)
    else
      match hist with
      | [] =>
        let r := back_steps p [] fuel
        (r.1, r.2 + 1)
      | q :: rest =>
        if is_on_search_results q then (true, 1)
        else if reached_advanced_search q then (false, 1)
        else
          let r := back_steps q rest fuel
          (r.1, r.2 + 1)

/-- Embedding of the main logic of `click_back_with_cf` (source lines
1254-1338): close any modal (which does not change the page), stop with
`True` if already on the results grid, on Business Information click
`.btn-back` and wait (returning `True` on the results grid, `False` on
Advanced Search, falling through otherwise), then the bounded
`history.back()` loop.  Returns the Python return value paired with the
number of backward navigations performed. -/
def click_back_with_cf (s : NavSession) : Bool × Nat :=
  if is_on_search_results s.current then (true, 0)
  else if is_on_business_info s.current then
    match s.btnBack with
    | some q =>
      if is_on_search_results q then (true, 0)
      else if reached_advanced_search q then (false, 0)
      else back_steps q s.hist 3
    | none => back_steps s.current s.hist 3
  else back_steps s.current s.hist 3

/-! ## Detail capture deduplication

PASS 2 of `scrape_keyword` (source lines 1729 and 1838-1889): one
Business Information capture per identifier, driven by the model
channel, with `visited_detail_ids` persisting across pages of the same
SearchTerm. -/

/-- One model-channel occurrence of a business during a SearchTerm run:
the identifier from `biz_obj.get("BusinessID") or biz_obj.get("ID")`
(`none` when both are falsy, which makes the loop `continue`), and the
outcome of `fetch_business_information_via_html` for this occurrence
(`none` covers both a raised exception and a `None` return; `some r`
carries the captured record payload). -/
structure DetailEvent where
  biz_id : Option String
  fetch_rec : Option String
deriving Repr, DecidableEq

/-- The per-keyword PASS 2 state: `visited_detail_ids`, the accumulated
`html_details_records` keyed by identifier, the success and failure
counters, and — as model instrumentation — the identifiers for which a
detail-view open was attempted, in order. -/
structure Pass2State where
  visited_detail_ids : List String
  html_details_records : List (String × String)
  details_success : Nat
  details_failed : Nat
  detail_opens : List String
deriving Repr, DecidableEq

/-- The state at the start of a keyword (source lines 1708-1710, 1729). -/
def pass2_init : Pass2State :=
  { visited_detail_ids := []
    html_details_records := []
    details_success := 0
    details_failed := 0
    detail_opens := [] }

/-- One iteration of the PASS 2 loop body (source lines 1839-1889): skip
a falsy identifier; skip an identifier already in `visited_detail_ids`;
otherwise open the detail view — on success append the record, increment
`details_success` and add the identifier to `visited_detail_ids`; on
failure increment `details_failed` only (the identifier is NOT added to
`visited_detail_ids`). -/
def pass2_step (st : Pass2State) (ev : DetailEvent) : Pass2State :=
  match ev.biz_id with
  | none => st
  | some bid =>
    if st.visited_detail_ids.contains bid then st
    else
      match ev.fetch_rec with
      | some r =>
        { visited_detail_ids := st.visited_detail_ids ++ [bid]
          html_details_records := st.html_details_records ++ [(bid, r)]
          details_success := st.details_success + 1
          details_failed := st.details_failed
          detail_opens := st.detail_opens ++ [bid] }
      | none =>
        { st with
          details_failed := st.details_failed + 1
          detail_opens := st.detail_opens ++ [bid] }

/-- PASS 2 over all model-channel occurrences of one SearchTerm, in
page order across all pages (the dedup state persists for the whole
keyword). -/
def run_pass2 (evs : List DetailEvent) : Pass2State :=
  evs.foldl pass2_step pass2_init

/-! ## PDF download validation

`is_valid_pdf` (source lines 1340-1358) and the per-filing download loop
of `scrape_filing_history_and_pdfs` (source lines 2076-2239). -/

/-- The default `min_size` of `is_valid_pdf`: 2048 bytes. -/
def MIN_PDF_SIZE : Nat := 2048

/-- One observation of a downloaded file's state: existence, size in
bytes, the first five bytes as read, and whether any of the file
operations raised (in which case `is_valid_pdf` returns `False`). -/
structure FileObs where
  fexists : Bool
  size : Nat
  head5 : List Nat
  io_error : Bool
deriving Repr, DecidableEq

/-- Embedding of `is_valid_pdf` (source lines 1340-1358): the file must
exist, have size at least `min_size`, and its content must start with
the PDF signature "%PDF" (bytes 0x25 0x50 0x44 0x46); a raised exception
yields `False`. -/
def is_valid_pdf (f : FileObs) (min_size : Nat) : Bool :=
  if f.io_error then false
  else if !f.fexists then false
  else if f.size < min_size then false
  else if !([37, 80, 68, 70].isPrefixOf f.head5) then false
  else true

/-- Everything the download loop observes for one filing row: the
stripped filing number (empty means `continue`), whether the
"View Documents" modal opened and became visible, whether a FULFILLED
document icon was found and clicked, whether a new PDF appeared within
the 60-second `wait_for_new_pdf` poll together with the file state at
the first validation check and at the re-check 2 seconds later, and
whether the copy to the final destination left it existing. -/
structure FilingEvent where
  filing_number : String
  modal_opened : Bool
  modal_visible : Bool
  fulfilled_clicked : Bool
  new_pdf : Option (FileObs × FileObs)
  dest_exists : Bool
  filing_type : String
deriving Repr, DecidableEq

/-- One entry of `pdf_summaries` (source lines 2226-2236), reduced to
the fields the validation claim concerns: the filing it belongs to and
the download observations it was accepted from. -/
structure PdfSummary where
  filing_number : String
  filing_type : String
  downloaded : FileObs × FileObs
deriving Repr, DecidableEq

/-- One iteration of the download loop (source lines 2077-2236):
`continue` (producing nothing) on an empty filing number, a failed
modal open, an invisible modal, no FULFILLED row, no new downloaded
file, or a download failing `is_valid_pdf` both at the first check and
at the re-check; an accepted download is copied and a summary is built
only when the destination exists afterwards. -/
def process_filing (ev : FilingEvent) : Option PdfSummary :=
  if ev.filing_number = "" then none
  else if !ev.modal_opened then none
  else if !ev.modal_visible then none
  else if !ev.fulfilled_clicked then none
  else
    match ev.new_pdf with
    | none => none
    | some (f1, f2) =>
      if !(is_valid_pdf f1 MIN_PDF_SIZE) && !(is_valid_pdf f2 MIN_PDF_SIZE) then
        none
      else if ev.dest_exists then
        some { filing_number := ev.filing_number
               filing_type := ev.filing_type
               downloaded := (f1, f2) }
      else none

/-- The download phase of `scrape_filing_history_and_pdfs` for one
business: the loop runs over `filings[:max_pdfs_per_business]` (cap 3
at the call site) and collects the accepted summaries in order. -/
def scrape_filing_pdfs (filings : List FilingEvent)
    (max_pdfs_per_business : Nat) : List PdfSummary :=
  (filings.take max_pdfs_per_business).filterMap process_filing

/-! ## Form submission retry

The form phase of `scrape_keyword` (source lines 1629-1688): up to 3
attempts to fill and submit the search form, with `5 * attempt` seconds
of backoff and a forced `ensure_advanced_search` between attempts, and
an all-zero per-keyword failure record on exhaustion. -/

/-- The per-keyword result dict that `scrape_keyword` returns when the
form phase gives up (source lines 1659-1670): every counter zero, no
output files. -/
structure KeywordResult where
  keyword : String
  pages_visited : Nat
  records_scraped : Nat
  details_file : Option String
  details_success : Nat
  details_failed : Nat
  api_file : Option String
  api_records : Nat
deriving Repr, DecidableEq

/-- The failure record of the form phase (source lines 1659-1670). -/
def form_failure_result (keyword : String) : KeywordResult :=
  { keyword := keyword
    pages_visited := 0
    records_scraped := 0
    details_file := none
    details_success := 0
    details_failed := 0
    api_file := none
    api_records := 0 }

/-- Instrumented outcome of the form-submission retry loop: the Python
`form_ok` flag, how many attempts actually ran, the backoff sleeps
performed between attempts (in seconds, in order), and how many forced
returns to the search form (`ensure_advanced_search`) happened between
attempts. -/
structure FormPhase where
  form_ok : Bool
  attempts_made : Nat
  backoff_sleeps : List Nat
  recoveries : Nat
deriving Repr, DecidableEq

/-- The loop `for attempt in range(1, 4)` of the form phase (source
lines 1630-1674).  `fails attempt` says whether the fill/submit block
raises on that attempt (attempts are numbered 1, 2, 3).  On an
exception at `attempt >= 3` the keyword is given up; on an earlier
exception the code sleeps `5 * attempt` seconds and forces a return to
the search form, then retries. -/
def submit_search_loop (fails : Nat → Bool) :
    Nat → Nat → List Nat → Nat → FormPhase
  | attempt, 0, sleeps, recs =>
    { form_ok := false, attempts_made := attempt - 1
      backoff_sleeps := sleeps, recoveries := recs }
  | attempt, fuel + 1, sleeps, recs =>
    if fails attempt then
      if 3 ≤ attempt then
        { form_ok := false, attempts_made := attempt
          backoff_sleeps := sleeps, recoveries := recs }
      else
        submit_search_loop fails (attempt + 1) fuel
          (sleeps ++ [5 * attempt]) (recs + 1)
    else
      { form_ok := true, attempts_made := attempt
        backoff_sleeps := sleeps, recoveries := recs }

/-- The whole form phase: attempts start at 1 and `range(1, 4)` yields
at most 3 iterations. -/
def submit_search (fails : Nat → Bool) : FormPhase :=
  submit_search_loop fails 1 3 [] 0

/-- The form phase of `scrape_keyword`: when the form could not be
submitted, the keyword immediately returns the all-zero failure record
(source lines 1658-1670 and 1676-1688); otherwise processing proceeds
(`none` here). -/
def scrape_keyword_form_phase (keyword : String) (fails : Nat → Bool) :
    Option KeywordResult :=
  if (submit_search fails).form_ok then none
  else some (form_failure_result keyword)

/-! ## Pagination loop

The `while True` loop of `scrape_keyword` (source lines 1734 and
1891-1931) together with the advance strategies `click_next_js` and
`click_page_number_js` (source lines 295-343). -/

/-- What one iteration of the pagination loop observes: the successive
pager reads of this iteration (`reads 0` is the initial read at line
1893; `reads (i+1)` is the i-th of the up-to-5 retries at lines
1895-1900), and whether `click_next_js` / `click_page_number_js`
executed their scripts without raising (each returns `True` on mere
invocation — best effort, arrival is not verified). -/
structure PageIterObs where
  reads : Nat → Option PagerInfo
  next_click_ok : Bool
  page_click_ok : Bool

/-- First successful pager read among reads `i, i+1, ...` with `fuel`
reads left; `none` when they all fail. -/
def first_pager_read (reads : Nat → Option PagerInfo) :
    Nat → Nat → Option PagerInfo
  | _, 0 => none
  | i, fuel + 1 =>
    match reads i with
    | some p => some p
    | none => first_pager_read reads (i + 1) fuel

/-- The pager read with retries (source lines 1892-1900): the initial
read plus up to 5 retries, 6 reads in all. -/
def pager_after_retries (reads : Nat → Option PagerInfo) : Option PagerInfo :=
  first_pager_read reads 0 6

/-- Why the pagination loop of one SearchTerm stopped. -/
inductive StopReason where
  | no_pager
  | last_page
  | advance_failed
deriving Repr, DecidableEq

/-- The `while True` pagination loop, observed through successive
iterations (`obs n` is iteration `n`; row and detail processing does not
influence the loop's control flow and is omitted).  The loop breaks when
no valid pager is found after the retries, when
`current_page >= total_pages`, or when neither advance strategy could be
invoked; a run that hits no stop condition within `fuel` iterations
returns `none` — still looping, since the code has no iteration bound of
its own. -/
def pagination_run (obs : Nat → PageIterObs) : Nat → Nat → Option (StopReason × Nat)
  | _, 0 => none
  | n, fuel + 1 =>
    match pager_after_retries (obs n).reads with
    | none => some (.no_pager, n)
    | some p =>
      if p.total_pages ≤ p.page then some (.last_page, n)
      else if (obs n).next_click_ok || (obs n).page_click_ok then
        pagination_run obs (n + 1) fuel
      else some (.advance_failed, n)

/-- A site that re-serves the same mid-range pager ("Page 1 of 2")
forever while both advance clicks keep succeeding without effect. -/
def stuck_site : Nat → PageIterObs :=
  fun _ => { reads := fun _ => some ⟨1, 2, 1, 25, 30⟩
             next_click_ok := true
             page_click_ok := true }

/-! ## Resume from the tracking file

The resume helpers of `run_letter` (source lines 2524-2561) and its
incremental tracking flush (source lines 2563-2569 and 2649-2672). -/

/-- One entry of the tracking file as far as resume is concerned: its
`"keyword"` value.  `none` stands for a missing key; Python truthiness
also rejects the empty string, handled in `load_existing_tracking`. -/
structure TrackingEntry where
  keyword : Option String
deriving Repr, DecidableEq

/-- Embedding of `load_existing_tracking` (source lines 2524-2536): a
missing, unreadable or non-list tracking file contributes nothing
(`none` here); otherwise the entries are kept and the `done` keyword set
collects every entry whose `"keyword"` is truthy. -/
def load_existing_tracking (file : Option (List TrackingEntry)) :
    List TrackingEntry × List String :=
  match file with
  | none => ([], [])
  | some data =>
    (data, data.filterMap fun e =>
      match e.keyword with
      | none => none
      | some k => if k = "" then none else some k)

/-- The resume filter of `run_letter` (source lines 2552-2561): keywords
already in `done` are dropped, the rest keep their order. -/
def pending_keywords (keywords : List String) (done : List String) :
    List String :=
  keywords.filter fun kw => !done.contains kw

/-- What `run_letter` schedules for a letter, given the keyword list and
the prior tracking file. -/
def run_letter_schedule (keywords : List String)
    (file : Option (List TrackingEntry)) : List String :=
  pending_keywords keywords (load_existing_tracking file).2

/-- The tracking content after a run: `tracking_combined` starts from
the existing entries and appends one entry (carrying its keyword) per
processed keyword; `flush_tracking` rewrites the file with this combined
list after every completion — an incremental append. -/
def tracking_after_run (existing : List TrackingEntry)
    (processed : List String) : List TrackingEntry :=
  existing ++ processed.map fun kw => { keyword := some kw }

/-! Declarative reading of the pager pattern, used to state that
`parse_pager` only ever returns integers actually parsed from a textual
occurrence of "Page X of Y, records A to B of C" in its input. -/

/-- A nonempty run of (ASCII) whitespace: what `\s+` denotes. -/
def SpaceRun (ws : List Char) : Prop :=
  ws ≠ [] ∧ ∀ ch ∈ ws, isPySpace ch = true

/-- A nonempty run of decimal digits with value `n`: what a capturing
`(\d+)` group denotes. -/
def DigitRun (ds : List Char) (n : Nat) : Prop :=
  ds ≠ [] ∧ (∀ ch ∈ ds, ch.isDigit = true) ∧ digitsVal ds = n

/-- `chunk` equals `cs` up to ASCII case: what a literal under
`re.IGNORECASE` denotes. -/
def LitICase (cs chunk : List Char) : Prop :=
  chunk.map pyLowerChar = cs.map pyLowerChar

/-- Declarative semantics of a token sequence: `chunk` splits into
consecutive pieces, one per token, and the capture list `ns` collects
the values of the digit runs in order. -/
def ToksOcc : List PTok → List Nat → List Char → Prop
  | [], ns, chunk => ns = [] ∧ chunk = []
  | .lit cs :: ts, ns, chunk =>
    ∃ c1 c2, chunk = c1 ++ c2 ∧ LitICase cs c1 ∧ ToksOcc ts ns c2
  | .sp1 :: ts, ns, chunk =>
    ∃ c1 c2, chunk = c1 ++ c2 ∧ SpaceRun c1 ∧ ToksOcc ts ns c2
  | .sp0 :: ts, ns, chunk =>
    ∃ c1 c2, chunk = c1 ++ c2 ∧ (∀ ch ∈ c1, isPySpace ch = true) ∧ ToksOcc ts ns c2
  | .num :: ts, ns, chunk =>
    ∃ n ns2 c1 c2, ns = n :: ns2 ∧ chunk = c1 ++ c2 ∧ DigitRun c1 n ∧ ToksOcc ts ns2 c2

/-- `chunk` is a textual occurrence of
"Page `a` of `b`, records `c` to `d` of `e`" (case-insensitive,
whitespace-flexible, exactly as the pager regex reads it). -/
def PagerOccurrence (a b c d e : Nat) (chunk : List Char) : Prop :=
  ToksOcc pagerPattern [a, b, c, d, e] chunk

/-! ## General lemmas -/

theorem isPrefixOf_iff {α : Type} [DecidableEq α] (l₁ l₂ : List α) :
    l₁.isPrefixOf l₂ = true ↔ ∃ t, l₂ = l₁ ++ t := by
  rw [List.isPrefixOf_iff_prefix]
  exact ⟨fun h => ⟨h.choose, h.choose_spec.symm⟩, fun h => ⟨h.choose, h.choose_spec.symm⟩⟩

theorem listHasInfix_iff (pat s : List Char) :
    listHasInfix pat s = true ↔ ∃ pre post, s = pre ++ pat ++ post := by
  induction s with
  | nil =>
    simp only [listHasInfix, List.isEmpty_iff]
    constructor
    · rintro rfl; exact ⟨[], [], rfl⟩
    · rintro ⟨pre, post, h⟩
      rcases List.append_eq_nil.mp (List.append_eq_nil.mp h.symm).1 with ⟨_, h2⟩
      exact h2
  | cons c rest ih =>
    simp only [listHasInfix, Bool.or_eq_true, ih]
    constructor
    · rintro (h | ⟨pre, post, rfl⟩)
      · rcases (isPrefixOf_iff pat (c :: rest)).mp h with ⟨t, ht⟩
        exact ⟨[], t, by simpa using ht⟩
      · exact ⟨c :: pre, post, rfl⟩
    · rintro ⟨pre, post, hs⟩
      cases pre with
      | nil =>
        left
        exact (isPrefixOf_iff pat (c :: rest)).mpr ⟨post, by simpa using hs⟩
      | cons p ps =>
        right
        refine ⟨ps, post, ?_⟩
        have := hs
        simp only [List.cons_append] at this
        exact (List.cons.injEq _ _ _ _ ▸ this).2

/-! ## Pager scanner soundness -/

theorem matchLit_sound : ∀ (lit s rest : List Char), matchLit lit s = some rest →
    ∃ chunk, s = chunk ++ rest ∧ LitICase lit chunk := by
  intro lit
  induction lit with
  | nil =>
    intro s rest h
    simp only [matchLit, Option.some.injEq] at h
    exact ⟨[], by simp [h], by simp [LitICase]⟩
  | cons p ps ih =>
    intro s rest h
    cases s with
    | nil => exact Option.noConfusion h
    | cons c cs =>
      simp only [matchLit] at h
      split at h
      · rename_i hc
        obtain ⟨chunk, hs, hmap⟩ := ih cs rest h
        refine ⟨c :: chunk, by simp [hs], ?_⟩
        simp only [LitICase, List.map_cons] at hmap ⊢
        rw [hmap, beq_iff_eq.mp hc]
      · exact Option.noConfusion h

theorem skipSpaces1_sound (s rest : List Char) (h : skipSpaces1 s = some rest) :
    ∃ ws, s = ws ++ rest ∧ SpaceRun ws := by
  simp only [skipSpaces1] at h
  split at h
  · exact Option.noConfusion h
  · rename_i hne
    simp only [Option.some.injEq] at h
    subst h
    refine ⟨s.takeWhile isPySpace, (List.takeWhile_append_dropWhile _ _).symm,
      ?_, fun ch hc => List.mem_takeWhile_imp hc⟩
    simpa [List.isEmpty_iff] using hne

theorem skipSpaces0_sound (s : List Char) :
    ∃ ws, s = ws ++ skipSpaces0 s ∧ ∀ ch ∈ ws, isPySpace ch = true :=
  ⟨s.takeWhile isPySpace, (List.takeWhile_append_dropWhile _ _).symm,
    fun _ hc => List.mem_takeWhile_imp hc⟩

theorem readDigits_sound (s : List Char) (n : Nat) (rest : List Char)
    (h : readDigits s = some (n, rest)) :
    ∃ ds, s = ds ++ rest ∧ DigitRun ds n := by
  simp only [readDigits] at h
  split at h
  · exact Option.noConfusion h
  · rename_i hne
    simp only [Option.some.injEq, Prod.mk.injEq] at h
    obtain ⟨hn, hr⟩ := h
    subst hr
    refine ⟨s.takeWhile Char.isDigit, (List.takeWhile_append_dropWhile _ _).symm,
      ?_, fun ch hc => List.mem_takeWhile_imp hc, hn⟩
    simpa [List.isEmpty_iff] using hne

theorem matchToks_sound : ∀ (ts : List PTok) (s : List Char) (ns : List Nat)
    (rest : List Char), matchToks ts s = some (ns, rest) →
    ∃ chunk, s = chunk ++ rest ∧ ToksOcc ts ns chunk := by
  intro ts
  induction ts with
  | nil =>
    intro s ns rest h
    simp only [matchToks, Option.some.injEq, Prod.mk.injEq] at h
    obtain ⟨rfl, rfl⟩ := h
    exact ⟨[], by simp, rfl, rfl⟩
  | cons t ts ih =>
    intro s ns rest h
    cases t with
    | lit cs =>
      simp only [matchToks] at h
      split at h
      · exact Option.noConfusion h
      · rename_i s1 hlit
        obtain ⟨chunk2, hs1, hocc⟩ := ih s1 ns rest h
        obtain ⟨chunk1, hs, hlitc⟩ := matchLit_sound cs s s1 hlit
        exact ⟨chunk1 ++ chunk2,
          by rw [hs, hs1, List.append_assoc],
          chunk1, chunk2, rfl, hlitc, hocc⟩
    | sp1 =>
      simp only [matchToks] at h
      split at h
      · exact Option.noConfusion h
      · rename_i s1 hsp
        obtain ⟨chunk2, hs1, hocc⟩ := ih s1 ns rest h
        obtain ⟨chunk1, hs, hrun⟩ := skipSpaces1_sound s s1 hsp
        exact ⟨chunk1 ++ chunk2,
          by rw [hs, hs1, List.append_assoc],
          chunk1, chunk2, rfl, hrun, hocc⟩
    | sp0 =>
      simp only [matchToks] at h
      obtain ⟨chunk2, hs1, hocc⟩ := ih (skipSpaces0 s) ns rest h
      obtain ⟨chunk1, hs, hrun⟩ := skipSpaces0_sound s
      exact ⟨chunk1 ++ chunk2,
        by rw [hs, hs1, List.append_assoc],
        chunk1, chunk2, rfl, hrun, hocc⟩
    | num =>
      simp only [matchToks] at h
      split at h
      · exact Option.noConfusion h
      · rename_i n s1 hrd
        split at h
        · exact Option.noConfusion h
        · rename_i ns1 rest1 hmt
          simp only [Option.some.injEq, Prod.mk.injEq] at h
          obtain ⟨rfl, rfl⟩ := h
          obtain ⟨chunk2, hs1, hocc⟩ := ih s1 ns1 rest1 hmt
          obtain ⟨chunk1, hs, hrun⟩ := readDigits_sound s n s1 hrd
          exact ⟨chunk1 ++ chunk2,
            by rw [hs, hs1, List.append_assoc],
            n, ns1, chunk1, chunk2, rfl, rfl, hrun, hocc⟩

theorem matchPagerAt_sound (s : List Char) (a b c d e : Nat)
    (h : matchPagerAt s = some (a, b, c, d, e)) :
    ∃ chunk rest, s = chunk ++ rest ∧ PagerOccurrence a b c d e chunk := by
  unfold matchPagerAt at h
  split at h
  · rename_i a1 b1 c1 d1 e1 snd heq
    simp only [Option.some.injEq, Prod.mk.injEq] at h
    obtain ⟨rfl, rfl, rfl, rfl, rfl⟩ := h
    obtain ⟨chunk, hs, hocc⟩ := matchToks_sound pagerPattern s _ snd heq
    exact ⟨chunk, snd, hs, hocc⟩
  · exact Option.noConfusion h

theorem pagerSearchList_sound : ∀ (s : List Char) (a b c d e : Nat),
    pagerSearchList s = some (a, b, c, d, e) →
    ∃ pre chunk post, s = pre ++ chunk ++ post ∧
      PagerOccurrence a b c d e chunk := by
  intro s
  induction s with
  | nil => intro a b c d e h; exact Option.noConfusion h
  | cons c0 rest ih =>
    intro a b c d e h
    simp only [pagerSearchList] at h
    split at h
    · rename_i g hg
      simp only [Option.some.injEq] at h
      subst h
      obtain ⟨chunk, r2, hs, hocc⟩ := matchPagerAt_sound (c0 :: rest) a b c d e hg
      exact ⟨[], chunk, r2, by simpa using hs, hocc⟩
    · rename_i hg
      obtain ⟨pre, chunk, post, hs, hocc⟩ := ih a b c d e h
      exact ⟨c0 :: pre, chunk, post, by simp [hs], hocc⟩

/-- C2: `parse_pager` rejects the all-zero placeholder
"Page 0 of 0, records 0 to 0 of 0"; it returns `some` only when its
input textually contains an occurrence of "Page X of Y, records A to B
of C" with Y > 0 and C > 0, and then it returns exactly the five parsed
integers; when the regex search finds nothing it returns `none`, and
when the search succeeds with Y > 0 and C > 0 the parsed integers are
returned unchanged. -/
theorem parse_pager_contract :
    parse_pager "Page 0 of 0, records 0 to 0 of 0" = none ∧
    (∀ html p, parse_pager html = some p →
      (∃ pre chunk post, html.data = pre ++ chunk ++ post ∧
        PagerOccurrence p.page p.total_pages p.start p.end_ p.total chunk) ∧
      0 < p.total_pages ∧ 0 < p.total) ∧
    (∀ html, pagerSearchList html.data = none → parse_pager html = none) ∧
    (∀ html a b c d e, pagerSearchList html.data = some (a, b, c, d, e) →
      0 < b → 0 < e → parse_pager html = some ⟨a, b, c, d, e⟩) := by
  refine ⟨by rfl, ?_, ?_, ?_⟩
  · intro html p hp
    unfold parse_pager at hp
    split at hp
    · exact Option.noConfusion hp
    · rename_i a b c d e hsig
      split at hp
      · exact Option.noConfusion hp
      · rename_i hcond
        simp only [Option.some.injEq] at hp
        subst hp
        obtain ⟨pre, chunk, post, hs, hocc⟩ :=
          pagerSearchList_sound html.data a b c d e hsig
        refine ⟨⟨pre, chunk, post, hs, hocc⟩, ?_, ?_⟩
        · show 0 < b
          simp only [Bool.or_eq_true, beq_iff_eq, not_or] at hcond
          omega
        · show 0 < e
          simp only [Bool.or_eq_true, beq_iff_eq, not_or] at hcond
          omega
  · intro html h
    simp only [parse_pager, h]
  · intro html a b c d e h hb he
    have hb' : b ≠ 0 := Nat.pos_iff_ne_zero.mp hb
    have he' : e ≠ 0 := Nat.pos_iff_ne_zero.mp he
    simp only [parse_pager, h, hb', he']
    simp [hb', he']

/-- Witness for C2 at a concrete input: a well-formed pager text with
positive totals parses to exactly its five integers. -/
theorem parse_pager_contract_witness :
    parse_pager "zz Page 2 of 9, records 26 to 50 of 218" =
      some ⟨2, 9, 26, 50, 218⟩ :=
  parse_pager_contract.2.2.2 "zz Page 2 of 9, records 26 to 50 of 218"
    2 9 26 50 218 (by rfl) (by decide) (by decide)

/-- C9: `parse_pager` performs no cross-field consistency validation
beyond rejecting zero totals: any match with Y not zero and C not zero
is returned unchanged, even with page > total_pages or start > end, as
the concrete inconsistent input "Page 7 of 5, records 9 to 3 of 10"
shows. -/
theorem parse_pager_no_cross_field_validation :
    (∀ html a b c d e, pagerSearchList html.data = some (a, b, c, d, e) →
      b ≠ 0 → e ≠ 0 → parse_pager html = some ⟨a, b, c, d, e⟩) ∧
    (parse_pager "Page 7 of 5, records 9 to 3 of 10" =
        some ⟨7, 5, 9, 3, 10⟩ ∧ 5 < 7 ∧ 3 < 9) := by
  constructor
  · intro html a b c d e h hb he
    simp only [parse_pager, h]
    simp [hb, he]
  · exact ⟨by rfl, by decide, by decide⟩

/-- Witness for C9 at a concrete input: an out-of-range page number and
an inverted record range are both accepted verbatim. -/
theorem parse_pager_no_cross_field_validation_witness :
    parse_pager "Page 9999 of 2, records 50 to 1 of 3" =
      some ⟨9999, 2, 50, 1, 3⟩ :=
  parse_pager_no_cross_field_validation.1 "Page 9999 of 2, records 50 to 1 of 3"
    9999 2 50 1 3 (by rfl) (by decide) (by decide)

/-! ## Challenge detection and waiting -/

theorem containsSubstr_iff (s pat : String) :
    containsSubstr s pat = true ↔ ∃ pre post, s.data = pre ++ pat.data ++ post :=
  listHasInfix_iff pat.data s.data

theorem cf_poll_loop_never (present : Nat → Bool)
    (hp : ∀ u, present u = true) :
    ∀ fuel t, cf_poll_loop present fuel t = t + fuel := by
  intro fuel
  induction fuel with
  | zero => intro t; simp [cf_poll_loop]
  | succ n ih =>
    intro t
    simp only [cf_poll_loop, hp t, if_true, ih (t + 1)]
    omega

theorem cf_poll_loop_clears (present : Nat → Bool) :
    ∀ fuel t k, t ≤ k → k < t + fuel →
    (∀ u, t ≤ u → u < k → present u = true) → present k = false →
    cf_poll_loop present fuel t = k := by
  intro fuel
  induction fuel with
  | zero => intro t k h1 h2; omega
  | succ n ih =>
    intro t k h1 h2 hbefore hat
    rcases Nat.eq_or_lt_of_le h1 with rfl | hlt
    · simp [cf_poll_loop, hat]
    · simp only [cf_poll_loop, hbefore t le_rfl hlt, if_true]
      exact ih (t + 1) k hlt (by omega) (fun u hu => hbefore u (by omega)) hat

/-- C10: challenge detection is decided purely by a case-insensitive
substring test — `handle_cloudflare_if_present` reports a challenge iff
the lower-cased page source contains "turnstile" or "cloudflare" as a
substring, and a failed page-source read (modelled as `none`, which the
code replaces by the empty string) is treated as no challenge. -/
theorem handle_cloudflare_if_present_detection :
    (∀ src : Option String, (handle_cloudflare_if_present src).1 = true ↔
      ∃ h, src = some h ∧
        ((∃ pre post, (pyLower h).data = pre ++ "turnstile".data ++ post) ∨
         (∃ pre post, (pyLower h).data = pre ++ "cloudflare".data ++ post))) ∧
    (handle_cloudflare_if_present none).1 = false := by
  have heval : ∀ src : Option String, handle_cloudflare_if_present src =
      if containsSubstr (pyLower (src.getD "")) "turnstile"
          || containsSubstr (pyLower (src.getD "")) "cloudflare"
        then (true, 9) else (false, 0) := fun _ => rfl
  constructor
  · intro src
    rw [heval src]
    cases src with
    | none =>
      rw [show (none : Option String).getD "" = "" from rfl, if_neg (by decide)]
      simp
    | some h =>
      rw [show (some h).getD "" = h from rfl]
      by_cases hc : (containsSubstr (pyLower h) "turnstile"
          || containsSubstr (pyLower h) "cloudflare") = true
      · rw [if_pos hc]
        simp only [Bool.or_eq_true] at hc
        constructor
        · intro _
          refine ⟨h, rfl, ?_⟩
          rcases hc with hc | hc
          · exact Or.inl ((containsSubstr_iff _ _).mp hc)
          · exact Or.inr ((containsSubstr_iff _ _).mp hc)
        · intro _; rfl
      · rw [if_neg hc]
        constructor
        · intro hfalse; exact absurd hfalse (by decide)
        · rintro ⟨h2, hh2, hor⟩
          injection hh2 with hh2
          subst hh2
          exfalso
          apply hc
          simp only [Bool.or_eq_true]
          rcases hor with hone | hone
          · exact Or.inl ((containsSubstr_iff _ _).mpr hone)
          · exact Or.inr ((containsSubstr_iff _ _).mpr hone)
  · decide

/-- Counterexample to C6 as stated: on a page whose source mentions the
challenge and whose marker never disappears, the outer Challenge Handler
returns `true` (not `false`) after one fixed 9-second sleep — it has no
`max_wait` parameter and does not poll — and the nested handler sleeps
the full fixed budget of 300 seconds, which no call site can set to 5. -/
theorem challenge_wait_counterexample :
    handle_cloudflare_if_present (some "<html>cloudflare challenge</html>") =
      (true, 9) ∧
    handle_cloudflare_nested cf_always_present = 300 := by
  refine ⟨by rfl, ?_⟩
  have h := cf_poll_loop_never cf_always_present (fun _ => rfl) 300 0
  simpa [handle_cloudflare_nested, cf_always_present] using h

/-- C6 amended: `handle_cloudflare_if_present` does not poll and takes no
`max_wait` — it sleeps a fixed 9 seconds exactly when a challenge marker
was detected; the nested handler of `click_back_with_cf` polls the
marker at a fixed 1-second interval up to a fixed budget of 300 polls
(~5 minutes), sleeping the full 300 seconds when the marker never
disappears and exactly `k` seconds when the marker first disappears at
second `k`; neither routine reports clear-versus-timeout to its caller. -/
theorem challenge_wait_behavior :
    (∀ src : Option String, (handle_cloudflare_if_present src).2 =
      if (handle_cloudflare_if_present src).1 then 9 else 0) ∧
    (∀ present : Nat → Bool, (∀ t, present t = true) →
      handle_cloudflare_nested present = 300) ∧
    (∀ (present : Nat → Bool) (k : Nat), k < 300 →
      (∀ t, t < k → present t = true) → present k = false →
      handle_cloudflare_nested present = k) := by
  refine ⟨?_, ?_, ?_⟩
  · intro src
    by_cases hc : (containsSubstr (pyLower (src.getD "")) "turnstile"
        || containsSubstr (pyLower (src.getD "")) "cloudflare") = true
    · show (if containsSubstr (pyLower (src.getD "")) "turnstile"
          || containsSubstr (pyLower (src.getD "")) "cloudflare"
          then ((true, 9) : Bool × Nat) else (false, 0)).2 = _
      rw [if_pos hc]
      show 9 = (if (handle_cloudflare_if_present src).1 then 9 else 0)
      have h1 : (handle_cloudflare_if_present src).1 = true := by
        show (if containsSubstr (pyLower (src.getD "")) "turnstile"
            || containsSubstr (pyLower (src.getD "")) "cloudflare"
            then ((true, 9) : Bool × Nat) else (false, 0)).1 = true
        rw [if_pos hc]
      rw [h1]
      rfl
    · show (if containsSubstr (pyLower (src.getD "")) "turnstile"
          || containsSubstr (pyLower (src.getD "")) "cloudflare"
          then ((true, 9) : Bool × Nat) else (false, 0)).2 = _
      rw [if_neg hc]
      have h1 : (handle_cloudflare_if_present src).1 = false := by
        show (if containsSubstr (pyLower (src.getD "")) "turnstile"
            || containsSubstr (pyLower (src.getD "")) "cloudflare"
            then ((true, 9) : Bool × Nat) else (false, 0)).1 = false
        rw [if_neg hc]
      rw [h1]
      rfl
  · intro present hp
    simp only [handle_cloudflare_nested, hp 0, if_true]
    simpa using cf_poll_loop_never present hp 300 0
  · intro present k hk hbefore hat
    rcases Nat.eq_zero_or_pos k with rfl | hpos
    · simp [handle_cloudflare_nested, hat]
    · simp only [handle_cloudflare_nested, hbefore 0 hpos, if_true]
      exact cf_poll_loop_clears present 300 0 k (Nat.zero_le k) (by omega)
        (fun u _ hu => hbefore u hu) hat

/-- Witness for the amended C6: the nested handler sleeps the full 300
seconds under a never-clearing marker, and exactly 5 seconds when the
marker disappears at second 5. -/
theorem challenge_wait_behavior_witness :
    handle_cloudflare_nested cf_always_present = 300 ∧
    handle_cloudflare_nested (fun t => decide (t < 5)) = 5 :=
  ⟨challenge_wait_behavior.2.1 cf_always_present (fun _ => rfl),
   challenge_wait_behavior.2.2 (fun t => decide (t < 5)) 5 (by decide)
     (fun t ht => by simp [ht]) (by decide)⟩

/-! ## Detail capture deduplication -/

theorem pass2_step_visited (st : Pass2State) (bid : String) (f : Option String)
    (hmem : bid ∈ st.visited_detail_ids) :
    pass2_step st ⟨some bid, f⟩ = st := by
  have hc : st.visited_detail_ids.contains bid = true :=
    List.elem_eq_true_of_mem hmem
  simp only [pass2_step, hc, if_true]

theorem pass2_step_keys (st : Pass2State) (ev : DetailEvent)
    (h : st.visited_detail_ids = st.html_details_records.map Prod.fst) :
    (pass2_step st ev).visited_detail_ids =
      (pass2_step st ev).html_details_records.map Prod.fst := by
  unfold pass2_step
  cases ev.biz_id with
  | none => exact h
  | some bid =>
    by_cases hc : st.visited_detail_ids.contains bid = true
    · simp only [hc, if_true]
      exact h
    · simp only [hc, if_false]
      cases ev.fetch_rec with
      | some r => simp [h]
      | none => exact h

theorem pass2_foldl_keys : ∀ (evs : List DetailEvent) (st : Pass2State),
    st.visited_detail_ids = st.html_details_records.map Prod.fst →
    (evs.foldl pass2_step st).visited_detail_ids =
      (evs.foldl pass2_step st).html_details_records.map Prod.fst := by
  intro evs
  induction evs with
  | nil => intro st h; exact h
  | cons ev evs ih =>
    intro st h
    exact ih (pass2_step st ev) (pass2_step_keys st ev h)

theorem pass2_foldl_nodup : ∀ (evs : List DetailEvent) (st : Pass2State),
    st.visited_detail_ids = st.html_details_records.map Prod.fst →
    (st.html_details_records.map Prod.fst).Nodup →
    ((evs.foldl pass2_step st).html_details_records.map Prod.fst).Nodup := by
  intro evs
  induction evs with
  | nil => intro st _ hnd; exact hnd
  | cons ev evs ih =>
    intro st h hnd
    refine ih (pass2_step st ev) (pass2_step_keys st ev h) ?_
    unfold pass2_step
    cases ev.biz_id with
    | none => exact hnd
    | some bid =>
      by_cases hc : st.visited_detail_ids.contains bid = true
      · simp only [hc, if_true]
        exact hnd
      · simp only [Bool.not_eq_true] at hc
        simp only [hc, Bool.false_eq_true, if_false]
        cases ev.fetch_rec with
        | some r =>
          have hnotmem : bid ∉ st.html_details_records.map Prod.fst := by
            rw [← h]
            intro hmem
            have h2 : st.visited_detail_ids.contains bid = true :=
              List.elem_eq_true_of_mem hmem
            rw [h2] at hc
            exact Bool.noConfusion hc
          simp only [List.map_append, List.map_cons, List.map_nil]
          rw [List.nodup_append]
          exact ⟨hnd, List.nodup_singleton bid,
            by simpa [List.disjoint_singleton] using hnotmem⟩
        | none => exact hnd

/-- C1 amended: at most one EntityDetailRecord is produced per distinct
identifier within one SearchTerm run (the record keys stay duplicate
free); an identifier is in `visited_detail_ids` exactly when a record
was already captured for it, and any later occurrence of such an
identifier is a complete no-op.  (When every earlier occurrence FAILED,
however, the detail view is opened again — failures are not memoized;
see the counterexample.) -/
theorem pass2_at_most_one_record_per_id :
    (∀ (evs : List DetailEvent) (bid : String),
      ((run_pass2 evs).html_details_records.map Prod.fst).count bid ≤ 1) ∧
    (∀ (evs : List DetailEvent) (bid : String),
      bid ∈ (run_pass2 evs).visited_detail_ids ↔
        ∃ r, (bid, r) ∈ (run_pass2 evs).html_details_records) ∧
    (∀ (pre : List DetailEvent) (bid : String) (f : Option String)
        (post : List DetailEvent),
      bid ∈ (run_pass2 pre).visited_detail_ids →
      run_pass2 (pre ++ ⟨some bid, f⟩ :: post) = run_pass2 (pre ++ post)) := by
  have hkeys : ∀ evs : List DetailEvent, (run_pass2 evs).visited_detail_ids =
      (run_pass2 evs).html_details_records.map Prod.fst :=
    fun evs => pass2_foldl_keys evs pass2_init rfl
  refine ⟨?_, ?_, ?_⟩
  · intro evs bid
    have hnd := pass2_foldl_nodup evs pass2_init rfl (by simp [pass2_init])
    exact List.nodup_iff_count_le_one.mp hnd bid
  · intro evs bid
    rw [hkeys evs]
    constructor
    · intro hmem
      obtain ⟨⟨b, r⟩, hpr, hfst⟩ := List.mem_map.mp hmem
      refine ⟨r, ?_⟩
      have hb : b = bid := hfst
      subst hb
      exact hpr
    · rintro ⟨r, hr⟩
      exact List.mem_map.mpr ⟨(bid, r), hr, rfl⟩
  · intro pre bid f post hmem
    unfold run_pass2
    rw [List.foldl_append, List.foldl_append, List.foldl_cons]
    rw [pass2_step_visited (pre.foldl pass2_step pass2_init) bid f hmem]

/-- Witness for the amended C1: a successful capture of "200" makes a
later occurrence of "200" a complete no-op. -/
theorem pass2_at_most_one_record_per_id_witness :
    run_pass2 [⟨some "200", some "A"⟩, ⟨some "200", some "B"⟩] =
      run_pass2 [⟨some "200", some "A"⟩] :=
  pass2_at_most_one_record_per_id.2.2 [⟨some "200", some "A"⟩] "200"
    (some "B") [] (by decide)

/-- Counterexample to C1 as stated: when the FIRST occurrence of
identifier "200" fails to produce a record, a second occurrence on a
later page is not skipped — the detail view is opened again (the opens
list shows "200" twice), although still only one record results. -/
theorem pass2_reopens_after_failed_first :
    run_pass2 [⟨some "200", none⟩, ⟨some "200", some "REC"⟩] =
      { visited_detail_ids := ["200"]
        html_details_records := [("200", "REC")]
        details_success := 1
        details_failed := 1
        detail_opens := ["200", "200"] } := by rfl

/-! ## PDF download validation -/

theorem is_valid_pdf_iff (f : FileObs) (min_size : Nat) :
    is_valid_pdf f min_size = true ↔
      f.io_error = false ∧ f.fexists = true ∧ min_size ≤ f.size ∧
        ∃ t, f.head5 = [37, 80, 68, 70] ++ t := by
  rcases f with ⟨fe, sz, h5, ioe⟩
  cases ioe
  · cases fe
    · simp [is_valid_pdf]
    · by_cases hs : sz < min_size
      · simp [is_valid_pdf, hs, Nat.not_le.mpr hs]
      · by_cases hp : [37, 80, 68, 70].isPrefixOf h5 = true
        · constructor
          · intro _
            exact ⟨rfl, rfl, Nat.not_lt.mp hs, (isPrefixOf_iff _ _).mp hp⟩
          · intro _
            simp [is_valid_pdf, hs, hp]
        · simp only [Bool.not_eq_true] at hp
          constructor
          · intro hval
            exfalso
            simp [is_valid_pdf, hs, hp] at hval
          · rintro ⟨-, -, -, t, ht⟩
            have h2 := (isPrefixOf_iff [37, 80, 68, 70] h5).mpr ⟨t, ht⟩
            rw [hp] at h2
            exact Bool.noConfusion h2
  · simp [is_valid_pdf]

theorem process_filing_some (ev : FilingEvent) (s : PdfSummary)
    (h : process_filing ev = some s) :
    ev.new_pdf = some s.downloaded ∧ s.filing_number = ev.filing_number ∧
      (is_valid_pdf s.downloaded.1 MIN_PDF_SIZE = true ∨
       is_valid_pdf s.downloaded.2 MIN_PDF_SIZE = true) := by
  simp only [process_filing] at h
  split at h
  · exact Option.noConfusion h
  split at h
  · exact Option.noConfusion h
  split at h
  · exact Option.noConfusion h
  split at h
  · exact Option.noConfusion h
  split at h
  · exact Option.noConfusion h
  rename_i f1 f2 heq
  split at h
  · exact Option.noConfusion h
  rename_i hval
  split at h
  · simp only [Option.some.injEq] at h
    subst h
    refine ⟨heq, rfl, ?_⟩
    simp only [Bool.and_eq_true, Bool.not_eq_true'] at hval
    by_cases hv1 : is_valid_pdf f1 MIN_PDF_SIZE = true
    · exact Or.inl hv1
    · refine Or.inr ?_
      simp only [Bool.not_eq_true] at hv1
      rcases Bool.eq_false_or_eq_true (is_valid_pdf f2 MIN_PDF_SIZE) with hv2 | hv2
      · exact hv2
      · exact absurd ⟨hv1, hv2⟩ hval
  · exact Option.noConfusion h

/-- C3: a FilingDocument (PDF summary entry) is constructed only from a
download that passed `is_valid_pdf` — file present, size at least the
2048-byte minimum, and content starting with the "%PDF" signature — at
one of its two validation checks; a filing whose download fails both
checks produces no summary, and the remaining filings are processed
exactly as if that filing were absent. -/
theorem filing_document_only_from_validated :
    (∀ (f : FileObs) (min_size : Nat), is_valid_pdf f min_size = true ↔
      f.io_error = false ∧ f.fexists = true ∧ min_size ≤ f.size ∧
        ∃ t, f.head5 = [37, 80, 68, 70] ++ t) ∧
    (∀ (filings : List FilingEvent) (cap : Nat) (s : PdfSummary),
      s ∈ scrape_filing_pdfs filings cap →
      ∃ ev ∈ filings.take cap, ev.new_pdf = some s.downloaded ∧
        s.filing_number = ev.filing_number ∧
        (is_valid_pdf s.downloaded.1 MIN_PDF_SIZE = true ∨
         is_valid_pdf s.downloaded.2 MIN_PDF_SIZE = true)) ∧
    (∀ (ev : FilingEvent) (f1 f2 : FileObs), ev.new_pdf = some (f1, f2) →
      is_valid_pdf f1 MIN_PDF_SIZE = false →
      is_valid_pdf f2 MIN_PDF_SIZE = false →
      process_filing ev = none) ∧
    (∀ (pre post : List FilingEvent) (ev : FilingEvent),
      process_filing ev = none →
      (pre ++ ev :: post).filterMap process_filing =
        (pre ++ post).filterMap process_filing) := by
  refine ⟨is_valid_pdf_iff, ?_, ?_, ?_⟩
  · intro filings cap s hmem
    obtain ⟨ev, hev, hsome⟩ := List.mem_filterMap.mp hmem
    exact ⟨ev, hev, process_filing_some ev s hsome⟩
  · intro ev f1 f2 hpdf hv1 hv2
    simp [process_filing, hpdf, hv1, hv2]
  · intro pre post ev h
    simp [List.filterMap_append, List.filterMap_cons, h]

/-- Witness for C3: an undersized download (100 bytes, even with the
right signature) is rejected at both checks and yields no summary for
its filing. -/
theorem filing_document_only_from_validated_witness :
    process_filing
      { filing_number := "2023-123456"
        modal_opened := true
        modal_visible := true
        fulfilled_clicked := true
        new_pdf := some (⟨true, 100, [37, 80, 68, 70], false⟩,
                         ⟨true, 100, [37, 80, 68, 70], false⟩)
        dest_exists := true
        filing_type := "ANNUAL REPORT" } = none :=
  filing_document_only_from_validated.2.2.1
    { filing_number := "2023-123456"
      modal_opened := true
      modal_visible := true
      fulfilled_clicked := true
      new_pdf := some (⟨true, 100, [37, 80, 68, 70], false⟩,
                       ⟨true, 100, [37, 80, 68, 70], false⟩)
      dest_exists := true
      filing_type := "ANNUAL REPORT" }
    ⟨true, 100, [37, 80, 68, 70], false⟩
    ⟨true, 100, [37, 80, 68, 70], false⟩
    rfl (by decide) (by decide)

/-! ## Resume from the tracking file -/

theorem done_of_entry (entries : List TrackingEntry) (kw : String)
    (hne : kw ≠ "") (he : ∃ e ∈ entries, e.keyword = some kw) :
    kw ∈ (load_existing_tracking (some entries)).2 := by
  obtain ⟨e, hmem, hkw⟩ := he
  simp only [load_existing_tracking]
  refine List.mem_filterMap.mpr ⟨e, hmem, ?_⟩
  rw [hkw]
  simp [hne]

/-- C8: a keyword already recorded in the prior run's tracking file is
not scheduled again; the schedule is exactly the keyword list filtered
down to the not-yet-done keywords, in order (and with no tracking file
it is the whole list); and the tracking file is extended by appending
one entry per processed keyword, so the resume is idempotent — after a
run that processes everything scheduled, a restart schedules nothing. -/
theorem resume_skips_done_keywords :
    (∀ (keywords : List String) (entries : List TrackingEntry) (kw : String),
      kw ≠ "" → (∃ e ∈ entries, e.keyword = some kw) →
      kw ∉ run_letter_schedule keywords (some entries)) ∧
    (∀ (keywords : List String) (file : Option (List TrackingEntry)),
      run_letter_schedule keywords file =
        keywords.filter fun kw =>
          !(load_existing_tracking file).2.contains kw) ∧
    (∀ keywords : List String, run_letter_schedule keywords none = keywords) ∧
    (∀ (keywords : List String) (entries : List TrackingEntry),
      (∀ kw ∈ keywords, kw ≠ "") →
      run_letter_schedule keywords
        (some (tracking_after_run entries
          (run_letter_schedule keywords (some entries)))) = []) := by
  refine ⟨?_, fun _ _ => rfl, ?_, ?_⟩
  · intro keywords entries kw hne he hmem
    have hdone := done_of_entry entries kw hne he
    have hpred := List.of_mem_filter hmem
    have hc : (load_existing_tracking (some entries)).2.contains kw = true :=
      List.elem_eq_true_of_mem hdone
    rw [hc] at hpred
    exact Bool.noConfusion hpred
  · intro keywords
    simp [run_letter_schedule, pending_keywords, load_existing_tracking]
  · intro keywords entries hne
    show keywords.filter (fun kw =>
        !(load_existing_tracking (some (tracking_after_run entries
          (run_letter_schedule keywords (some entries))))).2.contains kw) = []
    apply List.filter_eq_nil_iff.mpr
    intro kw hkw
    have hdone2 : kw ∈ (load_existing_tracking
        (some (tracking_after_run entries
          (run_letter_schedule keywords (some entries))))).2 := by
      by_cases hd : kw ∈ (load_existing_tracking (some entries)).2
      · simp only [load_existing_tracking, tracking_after_run]
        rw [List.filterMap_append]
        refine List.mem_append_left _ ?_
        simpa [load_existing_tracking] using hd
      · have hsched : kw ∈ run_letter_schedule keywords (some entries) := by
          refine List.mem_filter.mpr ⟨hkw, ?_⟩
          rcases Bool.eq_false_or_eq_true
              ((load_existing_tracking (some entries)).2.contains kw) with hc | hc
          · exact absurd (List.mem_of_elem_eq_true hc) hd
          · rw [hc]; rfl
        simp only [load_existing_tracking, tracking_after_run]
        rw [List.filterMap_append]
        refine List.mem_append_right _ ?_
        refine List.mem_filterMap.mpr ⟨{ keyword := some kw }, ?_, ?_⟩
        · exact List.mem_map.mpr ⟨kw, hsched, rfl⟩
        · simp [hne kw hkw]
    have hc2 : (load_existing_tracking
        (some (tracking_after_run entries
          (run_letter_schedule keywords (some entries))))).2.contains kw =
        true := List.elem_eq_true_of_mem hdone2
    simp [hc2]
    exact hdone2

/-- Witness for C8: with "AB" recorded in the tracking file, a restart
does not schedule "AB" again. -/
theorem resume_skips_done_keywords_witness :
    "AB" ∉ run_letter_schedule ["AB", "CD"]
      (some [{ keyword := some "AB" }]) :=
  resume_skips_done_keywords.1 ["AB", "CD"] [{ keyword := some "AB" }] "AB"
    (by decide) ⟨{ keyword := some "AB" }, by simp, rfl⟩

/-! ## Pagination loop -/

theorem pagination_run_stop_inv :
    ∀ (fuel n : Nat) (obs : Nat → PageIterObs) (r : StopReason) (k : Nat),
    pagination_run obs n fuel = some (r, k) →
    (r = .no_pager → pager_after_retries (obs k).reads = none) ∧
    (r = .last_page → ∃ p, pager_after_retries (obs k).reads = some p ∧
      p.total_pages ≤ p.page) ∧
    (r = .advance_failed → (obs k).next_click_ok = false ∧
      (obs k).page_click_ok = false ∧
      ∃ p, pager_after_retries (obs k).reads = some p ∧
        p.page < p.total_pages) := by
  intro fuel
  induction fuel with
  | zero => intro n obs r k h; exact Option.noConfusion h
  | succ m ih =>
    intro n obs r k h
    simp only [pagination_run] at h
    split at h
    · rename_i hget
      simp only [Option.some.injEq, Prod.mk.injEq] at h
      obtain ⟨rfl, rfl⟩ := h
      refine ⟨fun _ => hget, fun hr => StopReason.noConfusion hr,
        fun hr => StopReason.noConfusion hr⟩
    · rename_i p hget
      split at h
      · rename_i hle
        simp only [Option.some.injEq, Prod.mk.injEq] at h
        obtain ⟨rfl, rfl⟩ := h
        exact ⟨fun hr => StopReason.noConfusion hr, fun _ => ⟨p, hget, hle⟩,
          fun hr => StopReason.noConfusion hr⟩
      · rename_i hgt
        split at h
        · exact ih (n + 1) obs r k h
        · rename_i hclick
          simp only [Option.some.injEq, Prod.mk.injEq] at h
          obtain ⟨rfl, rfl⟩ := h
          simp only [Bool.or_eq_true, not_or, Bool.not_eq_true] at hclick
          exact ⟨fun hr => StopReason.noConfusion hr,
            fun hr => StopReason.noConfusion hr,
            fun _ => ⟨hclick.1, hclick.2, p, hget, by omega⟩⟩

theorem stuck_site_never_stops :
    ∀ (fuel n : Nat), pagination_run stuck_site n fuel = none := by
  intro fuel
  induction fuel with
  | zero => intro n; rfl
  | succ m ih =>
    intro n
    simp only [pagination_run]
    rw [show pager_after_retries (stuck_site n).reads =
      some ⟨1, 2, 1, 25, 30⟩ from rfl]
    simp only [show ((⟨1, 2, 1, 25, 30⟩ : PagerInfo).total_pages ≤
      (⟨1, 2, 1, 25, 30⟩ : PagerInfo).page) = (2 ≤ 1) from rfl]
    rw [if_neg (by omega)]
    simp only [show (stuck_site n).next_click_ok = true from rfl]
    simp only [Bool.true_or, if_true]
    exact ih (n + 1)

/-- Counterexample to C7 as stated: a site that re-serves the same
"Page 1 of 2" pager forever while the advance clicks keep succeeding is
never detected as stuck — after 100 iterations the loop is still
running, having hit no terminal condition. -/
theorem pagination_stuck_navigation_counterexample :
    pagination_run stuck_site 0 100 = none :=
  stuck_site_never_stops 100 0

/-- C7 amended: the pagination loop stops only under the three real
terminal conditions — pager unreadable after the bounded retries
(initial read plus 5 retries), `current_page >= total_pages`, or both
advance strategies failing to invoke — and whenever a valid mid-range
pager is read and an advance click succeeds, it simply continues; there
is no stuck-navigation detection, and under a site that re-serves the
same mid-range page forever with succeeding clicks the loop never
terminates (for every iteration bound it is still running). -/
theorem pagination_loop_stop_conditions :
    (∀ (obs : Nat → PageIterObs) (n fuel k : Nat),
      pagination_run obs n fuel = some (.no_pager, k) →
      pager_after_retries (obs k).reads = none) ∧
    (∀ (obs : Nat → PageIterObs) (n fuel k : Nat),
      pagination_run obs n fuel = some (.last_page, k) →
      ∃ p, pager_after_retries (obs k).reads = some p ∧
        p.total_pages ≤ p.page) ∧
    (∀ (obs : Nat → PageIterObs) (n fuel k : Nat),
      pagination_run obs n fuel = some (.advance_failed, k) →
      (obs k).next_click_ok = false ∧ (obs k).page_click_ok = false) ∧
    (∀ (obs : Nat → PageIterObs) (n fuel : Nat) (p : PagerInfo),
      pager_after_retries (obs n).reads = some p →
      p.page < p.total_pages →
      ((obs n).next_click_ok || (obs n).page_click_ok) = true →
      pagination_run obs n (fuel + 1) = pagination_run obs (n + 1) fuel) ∧
    (∀ fuel : Nat, pagination_run stuck_site 0 fuel = none) := by
  refine ⟨?_, ?_, ?_, ?_, fun fuel => stuck_site_never_stops fuel 0⟩
  · intro obs n fuel k h
    exact (pagination_run_stop_inv fuel n obs _ k h).1 rfl
  · intro obs n fuel k h
    exact (pagination_run_stop_inv fuel n obs _ k h).2.1 rfl
  · intro obs n fuel k h
    obtain ⟨h1, h2, -⟩ := (pagination_run_stop_inv fuel n obs _ k h).2.2 rfl
    exact ⟨h1, h2⟩
  · intro obs n fuel p hget hlt hclick
    simp only [pagination_run, hget, hclick, if_true]
    rw [if_neg (by omega)]

/-- Witness for the amended C7 at concrete inputs: a one-page site stops
with the last-page condition on its first iteration, and the stuck site
is still running after 100 iterations. -/
theorem pagination_loop_stop_conditions_witness :
    (∃ p, pager_after_retries
        ((fun _ => { reads := fun _ => some ⟨3, 3, 51, 75, 75⟩
                     next_click_ok := true
                     page_click_ok := true } : Nat → PageIterObs) 0).reads =
      some p ∧ p.total_pages ≤ p.page) ∧
    pagination_run stuck_site 0 100 = none :=
  ⟨pagination_loop_stop_conditions.2.1
      (fun _ => { reads := fun _ => some ⟨3, 3, 51, 75, 75⟩
                  next_click_ok := true
                  page_click_ok := true })
      0 5 0 (by rfl),
   pagination_loop_stop_conditions.2.2.2.2 100⟩

/-! ## Form submission retry -/

theorem submit_search_loop_attempts_le (fails : Nat → Bool) :
    ∀ (fuel attempt : Nat) (sleeps : List Nat) (recs : Nat),
    attempt ≤ 3 →
    (submit_search_loop fails attempt fuel sleeps recs).attempts_made ≤ 3 := by
  intro fuel
  induction fuel with
  | zero =>
    intro attempt sleeps recs h
    simp only [submit_search_loop]
    omega
  | succ n ih =>
    intro attempt sleeps recs h
    simp only [submit_search_loop]
    split
    · split
      · simpa using h
      · rename_i hlt
        exact ih (attempt + 1) _ _ (by omega)
    · simpa using h

/-- C5: three consecutive form-submission exceptions make `submit_search`
fail after exactly 3 attempts with no 4th attempt (in general at most 3
attempts ever run, whatever the outcomes); the backoff sleeps between
consecutive attempts are 5 and 10 seconds (attempt × fixed 5-second
base) with a forced return to the search form after each of the two
non-final failures; and the exhausted SearchTerm is recorded as a
permanent failure whose result carries zero pages, rows, detail records
and model-channel records. -/
theorem submit_search_three_failures :
    (∀ fails : Nat → Bool, fails 1 = true → fails 2 = true → fails 3 = true →
      submit_search fails =
        { form_ok := false, attempts_made := 3
          backoff_sleeps := [5, 10], recoveries := 2 }) ∧
    (∀ fails : Nat → Bool, (submit_search fails).attempts_made ≤ 3) ∧
    (∀ (keyword : String) (fails : Nat → Bool),
      fails 1 = true → fails 2 = true → fails 3 = true →
      scrape_keyword_form_phase keyword fails =
        some (form_failure_result keyword)) ∧
    (∀ keyword : String,
      (form_failure_result keyword).pages_visited = 0 ∧
      (form_failure_result keyword).records_scraped = 0 ∧
      (form_failure_result keyword).details_success = 0 ∧
      (form_failure_result keyword).api_records = 0) := by
  have hrun : ∀ fails : Nat → Bool, fails 1 = true → fails 2 = true →
      fails 3 = true → submit_search fails =
        { form_ok := false, attempts_made := 3
          backoff_sleeps := [5, 10], recoveries := 2 } := by
    intro fails h1 h2 h3
    simp [submit_search, submit_search_loop, h1, h2, h3]
  refine ⟨hrun, ?_, ?_, ?_⟩
  · intro fails
    exact submit_search_loop_attempts_le fails 3 1 [] 0 (by omega)
  · intro keyword fails h1 h2 h3
    simp [scrape_keyword_form_phase, hrun fails h1 h2 h3]
  · intro keyword
    exact ⟨rfl, rfl, rfl, rfl⟩

/-- Witness for C5: with every attempt failing, the form phase stops
after exactly 3 attempts, having slept 5 then 10 seconds, and the
keyword is recorded as an all-zero permanent failure. -/
theorem submit_search_three_failures_witness :
    submit_search (fun _ => true) =
      { form_ok := false, attempts_made := 3
        backoff_sleeps := [5, 10], recoveries := 2 } ∧
    scrape_keyword_form_phase "ACME" (fun _ => true) =
      some (form_failure_result "ACME") :=
  ⟨submit_search_three_failures.1 (fun _ => true) rfl rfl rfl,
   submit_search_three_failures.2.2.1 "ACME" (fun _ => true) rfl rfl rfl⟩

/-! ## Return navigation never passes the search form -/

theorem back_steps_le : ∀ (fuel : Nat) (p : PageView) (hist : List PageView),
    (back_steps p hist fuel).2 ≤ fuel := by
  intro fuel
  induction fuel with
  | zero => intro p hist; simp [back_steps]
  | succ n ih =>
    intro p hist
    cases hist with
    | nil =>
      simp only [back_steps]
      split
      · simp
      · split
        · simp
        · simpa using Nat.succ_le_succ (ih p [])
    | cons q rest =>
      simp only [back_steps]
      split
      · simp
      · split
        · simp
        · split
          · simp
          · split
            · simp
            · simpa using Nat.succ_le_succ (ih q rest)

theorem back_steps_stops_at_advanced : ∀ (pre : List PageView) (p q : PageView)
    (rest : List PageView) (fuel : Nat),
    is_on_search_results p = false → reached_advanced_search p = false →
    (∀ r ∈ pre, is_on_search_results r = false ∧
      reached_advanced_search r = false) →
    pre.length < fuel →
    is_on_search_results q = false → reached_advanced_search q = true →
    back_steps p (pre ++ q :: rest) fuel = (false, pre.length + 1) := by
  intro pre
  induction pre with
  | nil =>
    intro p q rest fuel hp1 hp2 _ hfuel hq1 hq2
    cases fuel with
    | zero => omega
    | succ n =>
      simp [back_steps, hp1, hp2, hq1, hq2]
  | cons r pre ih =>
    intro p q rest fuel hp1 hp2 hall hfuel hq1 hq2
    cases fuel with
    | zero => simp at hfuel
    | succ n =>
      have hr := hall r (by simp)
      simp only [back_steps, hp1, hp2, List.cons_append, Bool.false_eq_true,
        if_false, hr.1, hr.2]
      rw [ih r q rest n hr.1 hr.2 (fun x hx => hall x (by simp [hx]))
        (by simpa using hfuel) hq1 hq2]
      simp

/-- C4: `click_back_with_cf` never navigates backward past the search
form.  If Advanced Search is observed at entry, after the Business
Information back-button click, or after any `history.back()` step, the
function stops immediately with `False` and performs no further backward
navigation: it reports `False` with exactly the backward steps needed to
reach that observation (zero at entry or after the button click), and in
every case it performs at most 3 backward steps. -/
theorem click_back_never_past_search_form :
    (∀ s : NavSession, is_on_search_results s.current = false →
      is_on_business_info s.current = false →
      reached_advanced_search s.current = true →
      click_back_with_cf s = (false, 0)) ∧
    (∀ (s : NavSession) (q : PageView), is_on_search_results s.current = false →
      is_on_business_info s.current = true → s.btnBack = some q →
      is_on_search_results q = false → reached_advanced_search q = true →
      click_back_with_cf s = (false, 0)) ∧
    (∀ (s : NavSession) (pre : List PageView) (q : PageView)
        (rest : List PageView),
      s.hist = pre ++ q :: rest →
      is_on_business_info s.current = false →
      (∀ r ∈ s.current :: pre, is_on_search_results r = false ∧
        reached_advanced_search r = false) →
      pre.length < 3 →
      is_on_search_results q = false → reached_advanced_search q = true →
      click_back_with_cf s = (false, pre.length + 1)) ∧
    (∀ s : NavSession, (click_back_with_cf s).2 ≤ 3) := by
  refine ⟨?_, ?_, ?_, ?_⟩
  · intro s h1 h2 h3
    simp only [click_back_with_cf, h1, h2, Bool.false_eq_true, if_false]
    cases hb : s.btnBack <;>
      simp [back_steps, h1, h3]
  · intro s q h1 h2 hb hq1 hq2
    simp [click_back_with_cf, h1, h2, hb, hq1, hq2]
  · intro s pre q rest hhist h2 hall hlen hq1 hq2
    have hcur := hall s.current (by simp)
    simp only [click_back_with_cf, hcur.1, h2, Bool.false_eq_true, if_false]
    rw [hhist]
    exact back_steps_stops_at_advanced pre s.current q rest 3 hcur.1 hcur.2
      (fun r hr => hall r (by simp [hr])) hlen hq1 hq2
  · intro s
    simp only [click_back_with_cf]
    split
    · simp
    · split
      · cases hbb : s.btnBack with
        | none =>
          simp only [hbb]
          exact back_steps_le 3 s.current s.hist
        | some q =>
          simp only [hbb]
          split
          · simp
          · split
            · simp
            · exact back_steps_le 3 q s.hist
      · exact back_steps_le 3 s.current s.hist

/-- Witness for C4 at a concrete session: from an unrecognized
intermediate page whose first `history.back()` lands on the Advanced
Search URL, the function returns `False` after exactly that one backward
step. -/
theorem click_back_never_past_search_form_witness :
    click_back_with_cf
      { current := { url := some "https://ccfs.sos.wa.gov/#/UnknownView",
                     html := some "<html>loading</html>" },
        btnBack := none,
        hist := [{ url := some "https://ccfs.sos.wa.gov/#/AdvancedSearch",
                   html := some "<html>advanced search form</html>" }] } =
      (false, 1) :=
  click_back_never_past_search_form.2.2.1
    { current := { url := some "https://ccfs.sos.wa.gov/#/UnknownView",
                   html := some "<html>loading</html>" },
      btnBack := none,
      hist := [{ url := some "https://ccfs.sos.wa.gov/#/AdvancedSearch",
                 html := some "<html>advanced search form</html>" }] }
    [] _ [] (by rfl) (by decide)
    (by intro r hr; simp at hr; subst hr; exact ⟨by decide, by decide⟩)
    (by decide) (by decide) (by decide)

end WaScraper
